import Mathlib

/-!
Verification development for the multi-vendor streaming query engine of this
repository (`src-tauri/src/provider/openai.rs`, with the provider descriptor
types from `src-tauri/src/provider/mod.rs`).

Modelling conventions:
* Rust `String`/`&str` values are modelled as `List Char` (abbreviated `Str`);
  `chars().count()` is `List.length`, and Rust string literals are written
  `cs "..."`.
* `serde_json::Value` is modelled by the inductive `Json`; the opaque textual
  JSON parser `serde_json::from_str` is an explicit function parameter
  (`jparse`) of the streaming model, since none of the verified properties
  depend on how text is parsed into `Json`.
* Effectful code (HTTP requests, Tauri event emission, the repository lookups)
  is modelled by passing the outcome of each external interaction as an
  explicit argument and by returning the list of emitted event payloads; the
  per-event channel names are not modelled.
* Fallible Rust functions returning `Result<T, String>` become
  `Except Str T`.
* Rust's `char::is_whitespace` (Unicode `White_Space`) is `rustIsWS`;
  `str::to_lowercase` is modelled on the ASCII range, which is exact for the
  role keywords (`"user"`, `"assistant"`, `"system"`) it is compared against.
-/

set_option maxHeartbeats 1000000
set_option maxRecDepth 4000

abbrev Str : Type := List Char

/-- Character list of a Lean string literal (stands for a Rust string literal). -/
def cs (s : String) : Str := s.data

/-- Rust `char::is_whitespace`: the Unicode `White_Space` property. -/
def rustIsWS (c : Char) : Bool :=
  let n := c.toNat
  n == 9 || n == 10 || n == 11 || n == 12 || n == 13 || n == 32 ||
  n == 0x85 || n == 0xA0 || n == 0x1680 ||
  (Nat.ble 0x2000 n && Nat.ble n 0x200A) ||
  n == 0x2028 || n == 0x2029 || n == 0x202F || n == 0x205F || n == 0x3000

/-- Rust `str::trim_start`. -/
def rustTrimStart (l : Str) : Str := l.dropWhile rustIsWS

/-- Rust `str::trim_end`. -/
def rustTrimEnd : Str → Str
  | [] => []
  | c :: t =>
    let r := rustTrimEnd t
    if r = [] ∧ rustIsWS c then [] else c :: r

/-- Rust `str::trim`. -/
def rustTrim (l : Str) : Str := rustTrimEnd (rustTrimStart l)

/-- Rust `str::trim_end_matches('/')`. -/
def trimEndSlashes : Str → Str
  | [] => []
  | c :: t =>
    let r := trimEndSlashes t
    if r = [] ∧ c = '/' then [] else c :: r

/-- Rust `str::to_lowercase`, restricted to the ASCII mapping. -/
def lowerAscii (l : Str) : Str := l.map Char.toLower

/-- Decimal rendering of a status code (Rust `{}` formatting of `u16`). -/
def natStr (n : Nat) : Str := (Nat.repr n).data

/-- `pat` matches at the head of `l`. -/
def leadMatch : Str → Str → Bool
  | [], _ => true
  | _ :: _, [] => false
  | p :: ps, c :: rest => c == p && leadMatch ps rest

/-- Rust `str::contains(pat)` for a literal pattern (used for `"data:"`). -/
def hasSub (pat : Str) : Str → Bool
  | [] => pat.isEmpty
  | c :: rest => leadMatch pat (c :: rest) || hasSub pat rest

/-- `pat` occurs contiguously inside `l`. -/
def SubStr (pat l : Str) : Prop := ∃ p q, l = p ++ pat ++ q

/-- Rust `str::strip_prefix(pat)` (used for `"data:"`). -/
def stripLead : Str → Str → Option Str
  | [], l => some l
  | _ :: _, [] => none
  | p :: ps, c :: rest => if c = p then stripLead ps rest else none

/-- The chunk normalisation `replace("\r\n", "\n").replace('\r', '\n')`
performed by `stream_sse_response` before appending to the decoder buffer. -/
def normalizeCR : Str → Str
  | [] => []
  | '\r' :: '\n' :: rest => '\n' :: normalizeCR rest
  | '\r' :: rest => '\n' :: normalizeCR rest
  | c :: rest => c :: normalizeCR rest

/-- Split at every `'\n'`; the separators are dropped and every part is kept
(including a final empty part when the input ends with `'\n'`). -/
def splitNL : Str → List Str
  | [] => [[]]
  | c :: rest =>
    let ps := splitNL rest
    if c = '\n' then [] :: ps
    else
      match ps with
      | [] => [[c]]
      | p :: pt => (c :: p) :: pt

/-- Remove one trailing `'\r'` (the `\r` of a `\r\n` line terminator). -/
def stripCR (l : Str) : Str :=
  if l.getLast? = some '\r' then l.dropLast else l

/-- Rust `str::lines`: split at `\n` or `\r\n`; the terminator of the last
line is optional, and a trailing `'\r'` not followed by `'\n'` is kept. -/
def rustLines (l : Str) : List Str :=
  if l = [] then []
  else
    let ps := splitNL l
    match ps.getLast? with
    | some [] => ps.dropLast.map stripCR
    | _ => ps.dropLast.map stripCR ++ [(ps.getLast?).getD []]

/-- First index of the SSE block delimiter `"\n\n"` (Rust `buffer.find("\n\n")`). -/
def findNN : Str → Option Nat
  | c1 :: c2 :: rest =>
    if c1 = '\n' ∧ c2 = '\n' then some 0
    else (findNN (c2 :: rest)).map (· + 1)
  | _ => none

/-- The `data:` lines of one SSE block: each line is `trim_end`-ed, its
`data:` tag stripped, and the remainder `trim_start`-ed. -/
def sseDataLines (block : Str) : List Str :=
  (rustLines block).filterMap (fun line =>
    (stripLead (cs "data:") (rustTrimEnd line)).map rustTrimStart)

/-- The frames contributed by one SSE block: nothing when the block holds no
`data:` line, else the newline-join of its `data:` payloads. -/
def sseBlockFrames (block : Str) : List Str :=
  let ds := sseDataLines block
  if ds = [] then [] else [List.intercalate (cs "\n") ds]

/-- Fuelled core of `take_sse_frames`: repeatedly split the buffer at the
first `"\n\n"`, harvest the leading block, keep the remainder.  Each round
consumes at least two characters, so `buffer.length` rounds always suffice. -/
def takeSseAux : Nat → Str → List Str × Str
  | 0, buffer => ([], buffer)
  | fuel + 1, buffer =>
    match findNN buffer with
    | none => ([], buffer)
    | some i =>
      let block := buffer.take i
      let rest := buffer.drop (i + 2)
      let p := takeSseAux fuel rest
      (sseBlockFrames block ++ p.1, p.2)

/-- `take_sse_frames`: extract all complete SSE frames from the buffer and
return them together with the remaining (incomplete) buffer content. -/
def take_sse_frames (buffer : Str) : List Str × Str :=
  takeSseAux buffer.length buffer

/-- First index of `'\n'` (Rust `buffer.find('\n')`). -/
def findNL : Str → Option Nat
  | [] => none
  | c :: rest => if c = '\n' then some 0 else (findNL rest).map (· + 1)

/-- Fuelled core of `take_ndjson_lines`: split the buffer at every `'\n'`,
trim each line, keep `"[DONE]"` and JSON-looking lines, drop blank lines and
lines still carrying a `data:` tag. -/
def takeNdjsonAux : Nat → Str → List Str × Str
  | 0, buffer => ([], buffer)
  | fuel + 1, buffer =>
    match findNL buffer with
    | none => ([], buffer)
    | some i =>
      let line := rustTrim (buffer.take i)
      let rest := buffer.drop (i + 1)
      let p := takeNdjsonAux fuel rest
      if line = [] then p
      else if line = cs "[DONE]" then (line :: p.1, p.2)
      else if leadMatch (cs "data:") line then p
      else if line.head? = some '{' ∨ line.head? = some '[' then (line :: p.1, p.2)
      else p

/-- `take_ndjson_lines`: the newline-delimited-JSON fallback framing. -/
def take_ndjson_lines (buffer : Str) : List Str × Str :=
  takeNdjsonAux buffer.length buffer

/-- Model of `serde_json::Value`.  Numbers carry no structure the verified
properties depend on, so they are collapsed to `Int`. -/
inductive Json where
  | null
  | bool (b : Bool)
  | num (n : Int)
  | str (s : Str)
  | arr (elems : List Json)
  | obj (fields : List (Str × Json))

/-- `Value::get(key)`: field lookup on objects, `None` on anything else. -/
def Json.get : Json → Str → Option Json
  | .obj fields, key => (fields.find? (fun f => f.1 = key)).map (·.2)
  | _, _ => none

/-- `Value::as_str`. -/
def Json.asStr : Json → Option Str
  | .str s => some s
  | _ => none

/-- `Value::as_array`. -/
def Json.asArr : Json → Option (List Json)
  | .arr xs => some xs
  | _ => none

/-- The `.map(str::trim).filter(|s| !s.is_empty()).map(str::to_string)` tail
shared by the full-text extractors. -/
def trimNonEmpty (o : Option Str) : Option Str :=
  match o with
  | none => none
  | some s =>
    let t := rustTrim s
    if t = [] then none else some t

/-- `parse_openai_like_text`: `choices[0].message.content`, trimmed,
empty mapped to `None`. -/
def parse_openai_like_text (body : Json) : Option Str :=
  trimNonEmpty
    (((((body.get (cs "choices")).bind Json.asArr).bind List.head?).bind
        (fun choice => choice.get (cs "message"))).bind
      (fun message => message.get (cs "content")) |>.bind Json.asStr)

/-- `parse_openai_delta_text`: `choices[0].delta.content`, a plain non-empty
string or the concatenation of the `text` fields of an array of parts;
deltas are NOT trimmed. -/
def parse_openai_delta_text (body : Json) : Option Str :=
  match (((body.get (cs "choices")).bind Json.asArr).bind List.head?).bind
      (fun choice => choice.get (cs "delta")) with
  | none => none
  | some delta =>
    match delta.get (cs "content") with
    | none => none
    | some content =>
      let viaStr :=
        match content.asStr with
        | some text => if text ≠ [] then some text else none
        | none => none
      match viaStr with
      | some t => some t
      | none =>
        match content.asArr with
        | some parts =>
          let text := (parts.filterMap
            (fun part => (part.get (cs "text")).bind Json.asStr)).flatten
          if text ≠ [] then some text else none
        | none => none

/-- `parse_responses_text`: `output_text` (trimmed, non-empty) or
`output[0].content[0].text` (trimmed, non-empty). -/
def parse_responses_text (body : Json) : Option Str :=
  let viaOutputText :=
    match (body.get (cs "output_text")).bind Json.asStr with
    | some s =>
      let t := rustTrim s
      if t ≠ [] then some t else none
    | none => none
  match viaOutputText with
  | some t => some t
  | none =>
    trimNonEmpty
      ((((((body.get (cs "output")).bind Json.asArr).bind List.head?).bind
            (fun item => item.get (cs "content"))).bind Json.asArr).bind
          List.head? |>.bind (fun part => part.get (cs "text")) |>.bind Json.asStr)

/-- `parse_anthropic_text`: `content[0].text`, trimmed, non-empty. -/
def parse_anthropic_text (body : Json) : Option Str :=
  trimNonEmpty
    ((((body.get (cs "content")).bind Json.asArr).bind List.head?).bind
      (fun item => item.get (cs "text")) |>.bind Json.asStr)

/-- `parse_google_text`: `candidates[0].content.parts[0].text`, trimmed,
non-empty. -/
def parse_google_text (body : Json) : Option Str :=
  trimNonEmpty
    ((((((body.get (cs "candidates")).bind Json.asArr).bind List.head?).bind
          (fun candidate => candidate.get (cs "content"))).bind
        (fun content => content.get (cs "parts"))).bind Json.asArr |>.bind
      List.head? |>.bind (fun part => part.get (cs "text")) |>.bind Json.asStr)

/-- The provider families matched in `openai.rs` (`mod.rs` declares
OpenAI/Anthropic/Google/Custom; the `Glm` and `Volcengine` arms appearing in
`openai.rs` are included so every match arm of the source is represented). -/
inductive ProviderType where
  | openai
  | anthropic
  | google
  | custom
  | glm
  | volcengine
deriving DecidableEq

/-- `ProviderType::default_base_url` from `mod.rs` (no defaults are declared
there for the `glm`/`volcengine` arms, so they resolve like `custom`). -/
def default_base_url : ProviderType → Option Str
  | .openai => some (cs "https://api.openai.com/v1")
  | .anthropic => some (cs "https://api.anthropic.com/v1")
  | .google => some (cs "https://generativelanguage.googleapis.com/v1beta")
  | _ => none

/-- `parse_stream_delta`: per-family extraction of a streaming delta. -/
def parse_stream_delta (pt : ProviderType) (body : Json) : Option Str :=
  match pt with
  | .openai | .glm | .custom => parse_openai_delta_text body
  | .volcengine =>
    let early :=
      if (body.get (cs "type")).bind Json.asStr = some (cs "response.output_text.delta") then
        let d1 :=
          match (body.get (cs "delta")).bind Json.asStr with
          | some d => if d ≠ [] then some d else none
          | none => none
        match d1 with
        | some d => some d
        | none =>
          match ((body.get (cs "delta")).bind
              (fun delta => delta.get (cs "text"))).bind Json.asStr with
          | some d => if d ≠ [] then some d else none
          | none => none
      else none
    match early with
    | some d => some d
    | none =>
      match parse_openai_delta_text body with
      | some t => some t
      | none =>
        match (body.get (cs "delta")).bind Json.asStr with
        | some s => if s ≠ [] then some s else none
        | none => none
  | .anthropic =>
    match ((body.get (cs "delta")).bind
        (fun delta => delta.get (cs "text"))).bind Json.asStr with
    | some s => if s ≠ [] then some s else none
    | none => none
  | .google => parse_google_text body

/-- `parse_provider_text`: per-family extraction of a complete answer. -/
def parse_provider_text (pt : ProviderType) (body : Json) : Option Str :=
  match pt with
  | .openai | .glm | .custom => parse_openai_like_text body
  | .anthropic => parse_anthropic_text body
  | .google => parse_google_text body
  | .volcengine => parse_responses_text body

/-- Hex digit for the `\u00XX` escapes of the JSON serializer. -/
def hexDigit (n : Nat) : Char :=
  if n < 10 then Char.ofNat (48 + n) else Char.ofNat (87 + n)

/-- serde-style escaping of one character inside a JSON string. -/
def escCh (c : Char) : Str :=
  if c = '"' then cs "\\\""
  else if c = '\\' then cs "\\\\"
  else if c = '\n' then cs "\\n"
  else if c = '\r' then cs "\\r"
  else if c = '\t' then cs "\\t"
  else if c.toNat = 8 then cs "\\b"
  else if c.toNat = 12 then cs "\\f"
  else if c.toNat < 0x20 then cs "\\u00" ++ [hexDigit (c.toNat / 16), hexDigit (c.toNat % 16)]
  else [c]

/-- serde-style escaping of a JSON string body. -/
def escapeStr (s : Str) : Str := (s.map escCh).flatten

mutual

/-- Compact serialization of a `Json` value (`Value::to_string`), used only
inside diagnostic error messages. -/
def Json.toStr : Json → Str
  | .null => cs "null"
  | .bool true => cs "true"
  | .bool false => cs "false"
  | .num n => (toString n).data
  | .str s => '"' :: escapeStr s ++ ['"']
  | .arr xs => '[' :: List.intercalate (cs ",") (Json.arrStrs xs) ++ [']']
  | .obj fs => '{' :: List.intercalate (cs ",") (Json.objStrs fs) ++ ['}']

/-- Serializations of the elements of a JSON array. -/
def Json.arrStrs : List Json → List Str
  | [] => []
  | x :: xs => Json.toStr x :: Json.arrStrs xs

/-- Serializations of the fields of a JSON object. -/
def Json.objStrs : List (Str × Json) → List Str
  | [] => []
  | (k, v) :: fs => ('"' :: escapeStr k ++ ['"'] ++ cs ":" ++ Json.toStr v) :: Json.objStrs fs

end

/-- The `Provider` descriptor from `mod.rs`. -/
structure Provider where
  id : Str
  name : Str
  provider_type : ProviderType
  base_url : Option Str
  model : Str
  is_active : Bool
  display_order : Int
  created_at : Int
  updated_at : Int
deriving DecidableEq

/-- `resolve_base_url`: the descriptor's own `base_url`, else the per-type
default, trimmed and stripped of trailing `'/'`; empty results are rejected. -/
def resolve_base_url (provider : Provider) : Option Str :=
  let chosen :=
    match provider.base_url with
    | some s => some s
    | none => default_base_url provider.provider_type
  match chosen with
  | none => none
  | some s =>
    let t := trimEndSlashes (rustTrim s)
    if t = [] then none else some t

/-- reqwest `StatusCode::is_success` (2xx). -/
def isSuccessStatus (status : Nat) : Bool := decide (200 ≤ status ∧ status ≤ 299)

/-- `classify_http_failure`: status taxonomy plus model / status / detail
formatting. -/
def classify_http_failure (status : Nat) (model details : Str) : Str :=
  let pfx :=
    if status = 401 ∨ status = 403 then
      cs "Authentication failed. Check API key and permissions."
    else if status = 404 then cs "Model or endpoint not found. Check model/base URL."
    else if status = 429 then cs "Rate limited by provider."
    else if 500 ≤ status ∧ status ≤ 599 then cs "Provider server error."
    else cs "Connection test failed."
  if details = [] then
    pfx ++ cs " (model: " ++ model ++ cs ", status: " ++ natStr status ++ cs ")"
  else
    pfx ++ cs " (model: " ++ model ++ cs ", status: " ++ natStr status ++
      cs ", detail: " ++ details ++ cs ")"

/-- The taxonomy prefix chosen by `classify_http_failure` (the spec's
category-to-prefix table, named so theorems can speak about it). -/
def classifyPfx (status : Nat) : Str :=
  if status = 401 ∨ status = 403 then
    cs "Authentication failed. Check API key and permissions."
  else if status = 404 then cs "Model or endpoint not found. Check model/base URL."
  else if status = 429 then cs "Rate limited by provider."
  else if 500 ≤ status ∧ status ≤ 599 then cs "Provider server error."
  else cs "Connection test failed."

/-- `response_excerpt`: the body text with newlines flattened to spaces,
capped at 220 characters; a failed body read yields the empty excerpt. -/
def response_excerpt (chunks : List Str) (readErr : Option Str) : Str :=
  match readErr with
  | some _ => []
  | none => (chunks.flatten.map (fun c => if c = '\n' ∨ c = '\r' then ' ' else c)).take 220

/-- `ProviderChatMessage`. -/
structure ProviderChatMessage where
  role : Str
  content : Str
deriving DecidableEq

/-- The per-message filter of `normalize_messages`: lowercase the trimmed
role, trim the content, drop empty content and unknown roles. -/
def normalize_history_msg (m : ProviderChatMessage) : Option ProviderChatMessage :=
  let role := lowerAscii (rustTrim m.role)
  let content := rustTrim m.content
  if content = [] then none
  else if role ≠ cs "user" ∧ role ≠ cs "assistant" ∧ role ≠ cs "system" then none
  else some ⟨role, content⟩

/-- `normalize_messages`. -/
def normalize_messages (history : Option (List ProviderChatMessage)) (prompt : Str) :
    Except Str (List ProviderChatMessage) :=
  let messages := (history.getD []).filterMap normalize_history_msg
  if messages.any (fun m => m.role == cs "user") then .ok messages
  else
    let normalized_prompt := rustTrim prompt
    if normalized_prompt = [] then .error (cs "Prompt is empty.")
    else .ok (messages ++ [⟨cs "user", normalized_prompt⟩])

/-- `placeholder_response`. -/
def placeholder_response (provider : Provider) (prompt api_key : Str) : Str :=
  cs "You asked: \x27" ++ prompt ++ cs "\x27\n\nUsing provider: " ++ provider.name ++
  cs " (model: " ++ provider.model ++ cs ")\nAPI key configured: " ++
  (if api_key = [] then cs "No" else cs "Yes") ++
  cs "\n\nThis is a placeholder response. Configure your API key in settings to get real AI responses."

/-- `ConnectionTestResult`. -/
structure ConnectionTestResult where
  success : Bool
  message : Str
  status_code : Option Nat
  latency_ms : Nat
deriving DecidableEq

/-- `ConnectionTestResult::success`. -/
def ConnectionTestResult.mkSuccess (status_code : Option Nat) (latency_ms : Nat)
    (message : Str) : ConnectionTestResult :=
  ⟨true, message, status_code, latency_ms⟩

/-- `ConnectionTestResult::failure`. -/
def ConnectionTestResult.mkFailure (status_code : Option Nat) (latency_ms : Nat)
    (message : Str) : ConnectionTestResult :=
  ⟨false, message, status_code, latency_ms⟩

/-- Outcome of the probe's single HTTP interaction. -/
inductive ProbeOutcome where
  | netErr (e : Str) (latency : Nat)
  | response (status : Nat) (latency : Nat) (chunks : List Str) (readErr : Option Str)

/-- `test_provider_connection`, modelled after the repository lookup of the
provider and its API key has succeeded (the lookup itself is external
persistence).  The Boolean records whether the network request was issued. -/
def test_provider_connection (provider : Provider) (api_key : Str)
    (outcome : ProbeOutcome) : ConnectionTestResult × Bool :=
  if rustTrim api_key = [] then
    (.mkFailure none 0 (cs "API key is empty. Save API key before testing."), false)
  else
    match resolve_base_url provider with
    | none =>
      (.mkFailure none 0 (cs "Base URL is empty. Set a valid base URL before testing."), false)
    | some _ =>
      match outcome with
      | .netErr e lat => (.mkFailure none lat (cs "Network error: " ++ e), true)
      | .response status lat chunks readErr =>
        if isSuccessStatus status then
          (.mkSuccess (some status) lat
            (cs "Connection successful (model: " ++ provider.model ++ cs ")."), true)
        else
          (.mkFailure (some status) lat
            (classify_http_failure status provider.model (response_excerpt chunks readErr)),
           true)

/-- Decidable equality for `Except`, so model results can be compared by
`decide` in concrete witnesses. -/
instance {e a : Type} [DecidableEq e] [DecidableEq a] : DecidableEq (Except e a) := fun x y =>
  match x, y with
  | .ok u, .ok v =>
    if h : u = v then .isTrue (by rw [h]) else .isFalse (by intro hc; cases hc; exact h rfl)
  | .error u, .error v =>
    if h : u = v then .isTrue (by rw [h]) else .isFalse (by intro hc; cases hc; exact h rfl)
  | .ok _, .error _ => .isFalse (by intro hc; cases hc)
  | .error _, .ok _ => .isFalse (by intro hc; cases hc)

/-- Result of processing one list of decoded frame payloads. -/
structure EmitStep where
  events : List Str
  emitted : Nat
  sawDone : Bool
deriving DecidableEq

/-- The per-frame body of the streaming loop: stop at a payload trimming to
`"[DONE]"`; otherwise parse the trimmed payload, extract a delta, emit it and
add its character count. -/
def emitFrames (jparse : Str → Option Json) (pt : ProviderType) :
    List Str → Nat → EmitStep
  | [], n => ⟨[], n, false⟩
  | payload :: rest, n =>
    if rustTrim payload = cs "[DONE]" then ⟨[], n, true⟩
    else
      match jparse (rustTrim payload) with
      | none => emitFrames jparse pt rest n
      | some parsed =>
        match parse_stream_delta pt parsed with
        | none => emitFrames jparse pt rest n
        | some delta =>
          let p := emitFrames jparse pt rest (n + delta.length)
          ⟨delta :: p.events, p.emitted, p.sawDone⟩

/-- State after feeding some body chunks to the streaming loop. -/
structure ChunkStep where
  events : List Str
  buffer : Str
  emitted : Nat
  sawDone : Bool
deriving DecidableEq

/-- The NDJSON pass of the chunk loop: run only when the residual buffer
holds no `data:` tag (the heuristic vendor-format detection). -/
def ndjsonPass (jparse : Str → Option Json) (pt : ProviderType)
    (buf : Str) (n : Nat) : ChunkStep :=
  if hasSub (cs "data:") buf then ⟨[], buf, n, false⟩
  else
    let ndP := take_ndjson_lines buf
    let e2 := emitFrames jparse pt ndP.1 n
    ⟨e2.events, ndP.2, e2.emitted, e2.sawDone⟩

/-- The chunk loop of `stream_sse_response`: normalize the chunk, grow the
buffer, drain SSE frames, and — only when the residue holds no `data:` tag —
drain NDJSON lines as well; a `[DONE]` stops consumption of the body. -/
def streamChunks (jparse : Str → Option Json) (pt : ProviderType) :
    List Str → Str → Nat → ChunkStep
  | [], buffer, n => ⟨[], buffer, n, false⟩
  | chunk :: rest, buffer, n =>
    let sseP := take_sse_frames (buffer ++ normalizeCR chunk)
    let e1 := emitFrames jparse pt sseP.1 n
    if e1.sawDone then ⟨e1.events, sseP.2, e1.emitted, true⟩
    else
      let s2 := ndjsonPass jparse pt sseP.2 e1.emitted
      if s2.sawDone then ⟨e1.events ++ s2.events, s2.buffer, s2.emitted, true⟩
      else
        let p := streamChunks jparse pt rest s2.buffer s2.emitted
        ⟨e1.events ++ s2.events ++ p.events, p.buffer, p.emitted, p.sawDone⟩

/-- Emitted events plus final result of one streaming attempt. -/
structure StreamRes where
  events : List Str
  result : Except Str Nat
deriving DecidableEq

/-- `stream_sse_response`: the body is the list of chunks actually delivered,
`readErr` the error of the chunk read that would follow them (if any).  After
an exhausted body with zero emitted characters, the whole remaining buffer is
parsed once as a single JSON document. -/
def stream_sse_response (jparse : Str → Option Json) (pt : ProviderType)
    (chunks : List Str) (readErr : Option Str) : StreamRes :=
  let s := streamChunks jparse pt chunks [] 0
  if s.sawDone then ⟨s.events, .ok s.emitted⟩
  else
    match readErr with
    | some e => ⟨s.events, .error (cs "Failed reading SSE stream: " ++ e)⟩
    | none =>
      if s.emitted = 0 then
        let tail := rustTrim s.buffer
        if tail ≠ [] ∧ tail ≠ cs "[DONE]" then
          match jparse tail with
          | some body =>
            match parse_provider_text pt body with
            | some text => ⟨s.events ++ [text], .ok text.length⟩
            | none => ⟨s.events, .ok 0⟩
          | none => ⟨s.events, .ok 0⟩
        else ⟨s.events, .ok 0⟩
      else ⟨s.events, .ok s.emitted⟩

/-- Outcome of the streaming HTTP request. -/
inductive HttpOutcome where
  | netErr (e : Str)
  | response (status : Nat) (chunks : List Str) (readErr : Option Str)

/-- Result of `stream_provider_and_emit`; `netUsed` records whether the HTTP
request was issued (i.e. all local validations passed). -/
structure EmitRes where
  events : List Str
  result : Except Str Nat
  netUsed : Bool
deriving DecidableEq

/-- `stream_provider_and_emit`: local validations, the vendor request, the
non-2xx classification, then the streaming loop. -/
def stream_provider_and_emit (jparse : Str → Option Json) (provider : Provider)
    (api_key : Str) (messages : List ProviderChatMessage)
    (outcome : HttpOutcome) : EmitRes :=
  if rustTrim api_key = [] then ⟨[], .error (cs "API key is empty."), false⟩
  else if messages = [] then ⟨[], .error (cs "Messages are empty."), false⟩
  else
    match resolve_base_url provider with
    | none => ⟨[], .error (cs "Base URL is empty. Configure provider base URL."), false⟩
    | some _ =>
      match outcome with
      | .netErr e => ⟨[], .error (cs "Network error: " ++ e), true⟩
      | .response status chunks readErr =>
        if isSuccessStatus status then
          let s := stream_sse_response jparse provider.provider_type chunks readErr
          ⟨s.events, s.result, true⟩
        else
          ⟨[], .error (classify_http_failure status provider.model
              (response_excerpt chunks readErr)), true⟩

/-- Outcome of the non-streaming HTTP request (`badJson`: the body could not
be parsed as JSON). -/
inductive CallOutcome where
  | netErr (e : Str)
  | badJson (e : Str)
  | response (status : Nat) (body : Json)

/-- Result of `call_provider_and_get_text`. -/
structure CallRes where
  result : Except Str Str
  netUsed : Bool

/-- `call_provider_and_get_text`: local validations, the vendor request, JSON
body decoding, non-2xx classification, then full-text extraction. -/
def call_provider_and_get_text (provider : Provider) (api_key : Str)
    (messages : List ProviderChatMessage) (outcome : CallOutcome) : CallRes :=
  if rustTrim api_key = [] then ⟨.error (cs "API key is empty."), false⟩
  else if messages = [] then ⟨.error (cs "Messages are empty."), false⟩
  else
    match resolve_base_url provider with
    | none => ⟨.error (cs "Base URL is empty. Configure provider base URL."), false⟩
    | some _ =>
      match outcome with
      | .netErr e => ⟨.error (cs "Network error: " ++ e), true⟩
      | .badJson e => ⟨.error (cs "Failed to parse provider response: " ++ e), true⟩
      | .response status body =>
        if isSuccessStatus status then
          match parse_provider_text provider.provider_type body with
          | some t => ⟨.ok t, true⟩
          | none =>
            ⟨.error (cs "Provider returned no readable text. Response excerpt: " ++
                (Json.toStr body).take 220), true⟩
        else
          ⟨.error (classify_http_failure status provider.model
              ((Json.toStr body).take 220)), true⟩

/-- What one top-level query run produced: emitted event payloads, the
returned result, how many HTTP requests were issued, and how many
non-streaming fallback calls were made. -/
structure RunOut where
  events : List Str
  result : Except Str Unit
  netCalls : Nat
  fallbackCalls : Nat

/-- `.unwrap_or(0)` applied to the streaming attempt's result. -/
def streamedCount (r : Except Str Nat) : Nat :=
  match r with
  | .ok n => n
  | .error _ => 0

/-- `query_stream_provider`, modelled after the provider/key lookup: stream,
and when zero characters were streamed fall back to one non-streaming call
whose text is emitted and whose error is surfaced. -/
def query_stream_provider (jparse : Str → Option Json) (provider : Provider)
    (api_key : Str) (history : Option (List ProviderChatMessage)) (prompt : Str)
    (streamOutcome : HttpOutcome) (fallbackOutcome : CallOutcome) : RunOut :=
  match normalize_messages history prompt with
  | .error e => ⟨[], .error e, 0, 0⟩
  | .ok messages =>
    let s := stream_provider_and_emit jparse provider api_key messages streamOutcome
    let sNet := if s.netUsed then 1 else 0
    if streamedCount s.result > 0 then ⟨s.events, .ok (), sNet, 0⟩
    else
      let c := call_provider_and_get_text provider api_key messages fallbackOutcome
      let cNet := if c.netUsed then 1 else 0
      match c.result with
      | .ok text => ⟨s.events ++ [text], .ok (), sNet + cNet, 1⟩
      | .error e => ⟨s.events, .error e, sNet + cNet, 1⟩

/-- The notice emitted when no active provider is configured. -/
def no_active_provider_message : Str :=
  cs "No active provider configured. Please configure a provider in Settings."

/-- `query_stream`: the active-provider entry point; a failing fallback is
replaced by the placeholder message and the command still succeeds. -/
def query_stream (jparse : Str → Option Json)
    (active : Option (Provider × Str)) (prompt : Str)
    (streamOutcome : HttpOutcome) (fallbackOutcome : CallOutcome) : RunOut :=
  match normalize_messages none prompt with
  | .error e => ⟨[], .error e, 0, 0⟩
  | .ok messages =>
    match active with
    | some (provider, api_key) =>
      let s := stream_provider_and_emit jparse provider api_key messages streamOutcome
      let sNet := if s.netUsed then 1 else 0
      if streamedCount s.result > 0 then ⟨s.events, .ok (), sNet, 0⟩
      else
        let c := call_provider_and_get_text provider api_key messages fallbackOutcome
        let cNet := if c.netUsed then 1 else 0
        let response :=
          match c.result with
          | .ok text => text
          | .error _ => placeholder_response provider prompt api_key
        ⟨s.events ++ [response], .ok (), sNet + cNet, 1⟩
    | none => ⟨[no_active_provider_message], .ok (), 0, 0⟩

/-- Feeding a list of body chunks to the SSE frame decoder one at a time,
each time appending the chunk to the retained buffer and collecting the
frames extracted after the append (the protocol of the chunk-boundary
insensitivity property). -/
def feedSseChunks (chunks : List Str) : List Str × Str :=
  chunks.foldl
    (fun acc c =>
      let p := take_sse_frames (acc.2 ++ c)
      (acc.1 ++ p.1, p.2))
    ([], [])

/-- `findNN` is unaffected by extending the buffer to the right of a match. -/
theorem findNN_append {b : Str} {i : Nat} (h : findNN b = some i) (y : Str) :
    findNN (b ++ y) = some i := by
  induction b using findNN.induct generalizing i with
  | case1 c1 c2 rest hnn =>
    simp only [findNN, if_pos hnn] at h ⊢
    simpa using h
  | case2 c1 c2 rest hnn ih =>
    simp only [findNN, if_neg hnn] at h ⊢
    cases hf : findNN (c2 :: rest) with
    | none => rw [hf] at h; simp at h
    | some j =>
      rw [hf] at h
      simp at h
      have h2 := ih hf
      simp only [List.cons_append, List.append_eq] at h2 ⊢
      rw [h2]
      simpa using h
  | case3 x hx =>
    exfalso
    cases x with
    | nil => simp [findNN] at h
    | cons c t =>
      cases t with
      | nil => simp [findNN] at h
      | cons c2 t2 => exact hx c c2 t2 rfl

/-- A `"\n\n"` match leaves at least two characters after its index. -/
theorem findNN_bound {b : Str} {i : Nat} (h : findNN b = some i) : i + 2 ≤ b.length := by
  induction b using findNN.induct generalizing i with
  | case1 c1 c2 rest hnn =>
    simp only [findNN, if_pos hnn] at h
    cases h
    simp
  | case2 c1 c2 rest hnn ih =>
    simp only [findNN, if_neg hnn] at h
    cases hf : findNN (c2 :: rest) with
    | none => rw [hf] at h; simp at h
    | some j =>
      rw [hf] at h
      simp at h
      have := ih hf
      simp only [List.length_cons] at this ⊢
      omega
  | case3 x hx =>
    exfalso
    cases x with
    | nil => simp [findNN] at h
    | cons c t =>
      cases t with
      | nil => simp [findNN] at h
      | cons c2 t2 => exact hx c c2 t2 rfl

/-- Without a delimiter the decoder consumes nothing, at any fuel. -/
theorem takeSseAux_of_none {b : Str} (h : findNN b = none) (f : Nat) :
    takeSseAux f b = ([], b) := by
  cases f with
  | zero => rfl
  | succ f => simp [takeSseAux, h]

/-- The fuel of `takeSseAux` is irrelevant once it covers the buffer length. -/
theorem takeSseAux_fuel {f1 f2 : Nat} : ∀ {b : Str}, b.length ≤ f1 → b.length ≤ f2 →
    takeSseAux f1 b = takeSseAux f2 b := by
  induction f1 generalizing f2 with
  | zero =>
    intro b h1 _
    have : b = [] := List.eq_nil_of_length_eq_zero (Nat.le_zero.mp h1)
    subst this
    have h0 : findNN [] = none := rfl
    rw [takeSseAux_of_none h0, takeSseAux_of_none h0]
  | succ f ih =>
    intro b h1 h2
    cases hf : findNN b with
    | none => rw [takeSseAux_of_none hf, takeSseAux_of_none hf]
    | some i =>
      have hb := findNN_bound hf
      obtain ⟨f2p, rfl⟩ : ∃ m, f2 = m + 1 := ⟨f2 - 1, by omega⟩
      simp only [takeSseAux, hf]
      have hrest : (b.drop (i + 2)).length ≤ f := by
        rw [List.length_drop]; omega
      have hrest2 : (b.drop (i + 2)).length ≤ f2p := by
        rw [List.length_drop]; omega
      rw [ih hrest hrest2]

/-- One unfolding of `take_sse_frames` at a found delimiter. -/
theorem take_sse_frames_step {b : Str} {i : Nat} (h : findNN b = some i) :
    take_sse_frames b =
      (sseBlockFrames (b.take i) ++ (take_sse_frames (b.drop (i + 2))).1,
       (take_sse_frames (b.drop (i + 2))).2) := by
  have hb := findNN_bound h
  obtain ⟨m, hm⟩ : ∃ m, b.length = m + 1 := ⟨b.length - 1, by omega⟩
  unfold take_sse_frames
  rw [hm]
  simp only [takeSseAux, h]
  have : takeSseAux m (b.drop (i + 2)) = takeSseAux (b.drop (i + 2)).length (b.drop (i + 2)) := by
    apply takeSseAux_fuel
    · rw [List.length_drop]; omega
    · exact Nat.le_refl _
  rw [this]

/-- Without a delimiter `take_sse_frames` consumes nothing. -/
theorem take_sse_frames_of_none {b : Str} (h : findNN b = none) :
    take_sse_frames b = ([], b) :=
  takeSseAux_of_none h _

/-- The residual buffer left by `take_sse_frames` holds no delimiter. -/
theorem take_sse_frames_residual (b : Str) : findNN (take_sse_frames b).2 = none := by
  suffices h : ∀ f b0, List.length b0 ≤ f → findNN (takeSseAux f b0).2 = none by
    exact h b.length b (Nat.le_refl _)
  intro f
  induction f with
  | zero =>
    intro b0 h0
    have : b0 = [] := List.eq_nil_of_length_eq_zero (Nat.le_zero.mp h0)
    subst this
    rfl
  | succ f ih =>
    intro b0 h0
    cases hf : findNN b0 with
    | none => rw [takeSseAux_of_none hf]; exact hf
    | some i =>
      have hb := findNN_bound hf
      simp only [takeSseAux, hf]
      exact ih _ (by rw [List.length_drop]; omega)

/-- Chunk-boundary compositionality of `take_sse_frames`: processing `b ++ y`
yields first the frames of `b`, then the frames obtained from `b`'s residual
followed by `y`, whose residual is also the overall residual. -/
theorem take_sse_frames_append : ∀ (b y : Str),
    take_sse_frames (b ++ y) =
      ((take_sse_frames b).1 ++ (take_sse_frames ((take_sse_frames b).2 ++ y)).1,
       (take_sse_frames ((take_sse_frames b).2 ++ y)).2)
  | b, y => by
    cases hf : findNN b with
    | none =>
      rw [take_sse_frames_of_none hf]
      simp
    | some i =>
      have hb := findNN_bound hf
      have hfa := findNN_append hf y
      have hstep := take_sse_frames_step hf
      have hstepA := take_sse_frames_step hfa
      have htake : (b ++ y).take i = b.take i := by
        rw [List.take_append_eq_append_take]
        have : i - b.length = 0 := by omega
        simp [this]
      have hdrop : (b ++ y).drop (i + 2) = b.drop (i + 2) ++ y := by
        rw [List.drop_append_eq_append_drop]
        have : i + 2 - b.length = 0 := by omega
        simp [this]
      have hlt : (b.drop (i + 2)).length < b.length := by
        rw [List.length_drop]; omega
      have ihr := take_sse_frames_append (b.drop (i + 2)) y
      rw [hstepA, htake, hdrop, hstep, ihr]
      simp [List.append_assoc]
termination_by b _ => b.length

/-- Folding the chunk-feed step from a residual buffer agrees with decoding
the concatenation in one shot. -/
theorem feedSse_foldl (chunks : List Str) :
    ∀ (fs0 : List Str) (b0 : Str), findNN b0 = none →
      chunks.foldl
        (fun acc c =>
          let p := take_sse_frames (acc.2 ++ c)
          (acc.1 ++ p.1, p.2))
        (fs0, b0) =
      (fs0 ++ (take_sse_frames (b0 ++ chunks.flatten)).1,
       (take_sse_frames (b0 ++ chunks.flatten)).2) := by
  induction chunks with
  | nil =>
    intro fs0 b0 h0
    simp [take_sse_frames_of_none h0]
  | cons c rest ih =>
    intro fs0 b0 h0
    simp only [List.foldl_cons]
    rw [ih _ _ (take_sse_frames_residual (b0 ++ c))]
    have := take_sse_frames_append (b0 ++ c) rest.flatten
    simp only [List.flatten_cons, ← List.append_assoc]
    rw [this]
    simp [List.append_assoc]

/-- C2: the SSE frame decoder is chunk-boundary-insensitive — feeding any
splitting of an input chunk by chunk (collecting frames after each append)
produces exactly the frames, in order, of decoding the whole input at once,
and the identical residual buffer, which holds no complete frame. -/
theorem sse_decoder_chunk_insensitive (s : Str) (chunks : List Str)
    (h : chunks.flatten = s) :
    feedSseChunks chunks = take_sse_frames s ∧
    findNN (feedSseChunks chunks).2 = none := by
  subst h
  have h0 : findNN [] = none := rfl
  have hfold := feedSse_foldl chunks [] [] h0
  unfold feedSseChunks
  rw [hfold]
  refine ⟨?_, ?_⟩
  · simp
  · simpa using take_sse_frames_residual chunks.flatten

/-- Witness for C2 at the spec's own example split of
`"data: {\"a\":1}\n\n"` into `"data: {\"a\""` and `":1}\n\n"`. -/
theorem sse_decoder_chunk_insensitive_witness :
    feedSseChunks [cs "data: \x7b\"a\"", cs ":1\x7d\n\n"] =
      take_sse_frames (cs "data: \x7b\"a\":1\x7d\n\n") ∧
    take_sse_frames (cs "data: \x7b\"a\":1\x7d\n\n") = ([cs "\x7b\"a\":1\x7d"], []) :=
  ⟨(sse_decoder_chunk_insensitive (cs "data: \x7b\"a\":1\x7d\n\n")
      [cs "data: \x7b\"a\"", cs ":1\x7d\n\n"] (by decide)).1,
   by decide⟩

/-- Splitting a payload list across `emitFrames`: the second half is only
processed when the first half saw no `[DONE]`, and counts continue. -/
theorem emitFrames_append (jp : Str → Option Json) (pt : ProviderType) :
    ∀ (l1 l2 : List Str) (n : Nat),
    emitFrames jp pt (l1 ++ l2) n =
      if (emitFrames jp pt l1 n).sawDone then emitFrames jp pt l1 n
      else
        ⟨(emitFrames jp pt l1 n).events ++
            (emitFrames jp pt l2 (emitFrames jp pt l1 n).emitted).events,
          (emitFrames jp pt l2 (emitFrames jp pt l1 n).emitted).emitted,
          (emitFrames jp pt l2 (emitFrames jp pt l1 n).emitted).sawDone⟩ := by
  intro l1
  induction l1 with
  | nil => intro l2 n; simp [emitFrames]
  | cons p rest ih =>
    intro l2 n
    by_cases hd : rustTrim p = cs "[DONE]"
    · simp [emitFrames, hd]
    · cases hj : jp (rustTrim p) with
      | none =>
        simp only [List.cons_append, List.append_eq, emitFrames, if_neg hd, hj]
        exact ih l2 n
      | some parsed =>
        cases hp : parse_stream_delta pt parsed with
        | none =>
          simp only [List.cons_append, List.append_eq, emitFrames, if_neg hd, hj, hp]
          exact ih l2 n
        | some delta =>
          simp only [List.cons_append, List.append_eq, emitFrames, if_neg hd, hj, hp]
          rw [ih l2 (n + delta.length)]
          by_cases hdone : (emitFrames jp pt rest (n + delta.length)).sawDone
          · simp [hdone]
          · simp [hdone]

/-- A leading exact `[DONE]` payload stops the frame loop at once. -/
theorem emitFrames_done_head (jp : Str → Option Json) (pt : ProviderType)
    (ps : List Str) (n : Nat) :
    emitFrames jp pt (cs "[DONE]" :: ps) n = ⟨[], n, true⟩ := by
  have ht : rustTrim (cs "[DONE]") = cs "[DONE]" := by decide
  simp [emitFrames, ht]

/-- The body-chunk loop consumes no further chunks once `[DONE]` was seen. -/
theorem streamChunks_done_append (jp : Str → Option Json) (pt : ProviderType) :
    ∀ (cs1 cs2 : List Str) (b : Str) (n : Nat),
    (streamChunks jp pt cs1 b n).sawDone = true →
    streamChunks jp pt (cs1 ++ cs2) b n = streamChunks jp pt cs1 b n := by
  intro cs1
  induction cs1 with
  | nil => intro cs2 b n h; simp [streamChunks] at h
  | cons c rest ih =>
    intro cs2 b n h
    simp only [List.cons_append, List.append_eq, streamChunks] at h ⊢
    by_cases h1 : (emitFrames jp pt (take_sse_frames (b ++ normalizeCR c)).1 n).sawDone
    · simp [h1]
    · simp only [if_neg h1] at h ⊢
      by_cases h2 : (ndjsonPass jp pt (take_sse_frames (b ++ normalizeCR c)).2
          (emitFrames jp pt (take_sse_frames (b ++ normalizeCR c)).1 n).emitted).sawDone
      · simp [h2]
      · simp only [if_neg h2] at h ⊢
        rw [ih cs2 _ _ h]

/-- C5: a decoded frame payload of exactly `[DONE]` ends the stream
successfully with the character count emitted so far: the frame loop ignores
every payload after it, and the streaming loop returns `.ok` of that count
with no further deltas, regardless of bytes left in the decoder buffer or
unread body chunks (and of any pending read error). -/
theorem done_frame_terminates (jp : Str → Option Json) (pt : ProviderType)
    (ps1 ps2 : List Str) (n : Nat) (chunks more : List Str)
    (readErr readErr' : Option Str) :
    (emitFrames jp pt (ps1 ++ cs "[DONE]" :: ps2) n =
       emitFrames jp pt (ps1 ++ [cs "[DONE]"]) n) ∧
    (emitFrames jp pt (ps1 ++ cs "[DONE]" :: ps2) n).sawDone = true ∧
    ((streamChunks jp pt chunks [] 0).sawDone = true →
      stream_sse_response jp pt (chunks ++ more) readErr =
        ⟨(streamChunks jp pt chunks [] 0).events,
         .ok (streamChunks jp pt chunks [] 0).emitted⟩ ∧
      stream_sse_response jp pt chunks readErr' =
        ⟨(streamChunks jp pt chunks [] 0).events,
         .ok (streamChunks jp pt chunks [] 0).emitted⟩) := by
  have hA := emitFrames_append jp pt ps1 (cs "[DONE]" :: ps2) n
  have hB := emitFrames_append jp pt ps1 [cs "[DONE]"] n
  have hD := emitFrames_done_head jp pt ps2 (emitFrames jp pt ps1 n).emitted
  have hD0 := emitFrames_done_head jp pt [] (emitFrames jp pt ps1 n).emitted
  refine ⟨?_, ?_, ?_⟩
  · rw [hA, hB]
    by_cases hdone : (emitFrames jp pt ps1 n).sawDone
    · simp [hdone]
    · simp [hdone, hD, hD0]
  · rw [hA]
    by_cases hdone : (emitFrames jp pt ps1 n).sawDone
    · simp [hdone]
    · simp [hdone, hD]
  · intro hsaw
    have hcons := streamChunks_done_append jp pt chunks more [] 0 hsaw
    constructor
    · unfold stream_sse_response
      rw [hcons]
      simp [hsaw]
    · unfold stream_sse_response
      simp [hsaw]

/-- Witness for C5: a body whose first frame is `[DONE]` ends the stream with
zero characters even though another chunk and a read error follow. -/
theorem done_frame_terminates_witness :
    stream_sse_response (fun _ => none) ProviderType.openai
      ([cs "data: [DONE]\n\nleft"] ++ [cs "data: x\n\n"]) (some (cs "boom")) =
      ⟨[], Except.ok 0⟩ := by
  have h := ((done_frame_terminates (fun _ => none) ProviderType.openai [] [] 0
      [cs "data: [DONE]\n\nleft"] [cs "data: x\n\n"] (some (cs "boom")) none).2.2
      (by decide)).1
  rw [h]
  decide

/-- `classify_http_failure` decomposed: taxonomy prefix, model, status, and a
detail section present exactly when the excerpt is non-empty. -/
theorem classify_decompose (status : Nat) (model details : Str) :
    classify_http_failure status model details =
      classifyPfx status ++ (cs " (model: " ++ (model ++ (cs ", status: " ++ (natStr status ++
        (if details = [] then cs ")"
         else cs ", detail: " ++ (details ++ cs ")")))))) := by
  by_cases hd : details = [] <;>
    simp [classify_http_failure, classifyPfx, hd, List.append_assoc]

/-- Classified failure messages are never empty. -/
theorem classify_ne_nil (status : Nat) (model details : Str) :
    classify_http_failure status model details ≠ [] := by
  rw [classify_decompose]
  intro h
  rcases List.append_eq_nil.mp h with ⟨-, h2⟩
  rcases List.append_eq_nil.mp h2 with ⟨h3, -⟩
  simp [cs] at h3

/-- A pattern that starts a string occurs in any right extension of it. -/
theorem SubStr_head {p : Str} (a b : Str) (h : a = p ++ b) (rest : Str) :
    SubStr p (a ++ rest) :=
  ⟨[], b ++ rest, by subst h; simp [List.append_assoc]⟩

/-- `trim_end_matches('/')` leaves no trailing slash. -/
theorem trimEndSlashes_no_slash (l : Str) :
    trimEndSlashes l = [] ∨ (trimEndSlashes l).getLast? ≠ some '/' := by
  induction l with
  | nil => exact Or.inl rfl
  | cons c t ih =>
    by_cases h : trimEndSlashes t = [] ∧ c = '/'
    · left; simp [trimEndSlashes, h]
    · right
      have hc : trimEndSlashes (c :: t) = c :: trimEndSlashes t := by
        simp [trimEndSlashes, h]
      rw [hc]
      cases hr : trimEndSlashes t with
      | nil =>
        have hcne : ¬c = '/' := fun hcc => h ⟨hr, hcc⟩
        simp [hcne]
      | cons d r =>
        rcases ih with h1 | h2
        · rw [hr] at h1; cases h1
        · rw [hr] at h2
          rw [List.getLast?_cons_cons]
          exact h2

/-- C7: the failure classifier maps 401/403 to the authentication prefix,
404 to not-found, 429 to rate-limited, 5xx to vendor-server-error and all
other statuses to the generic prefix; every message embeds the model name and
the numeric status, embeds a non-empty detail excerpt, and carries no detail
section when the excerpt is empty. -/
theorem classifier_taxonomy (status : Nat) (model details : Str) :
    ((status = 401 ∨ status = 403) →
      SubStr (cs "Authentication failed") (classify_http_failure status model details)) ∧
    (status = 404 →
      SubStr (cs "Model or endpoint not found") (classify_http_failure status model details)) ∧
    (status = 429 →
      SubStr (cs "Rate limited") (classify_http_failure status model details)) ∧
    (500 ≤ status ∧ status ≤ 599 →
      SubStr (cs "Provider server error") (classify_http_failure status model details)) ∧
    (¬(status = 401 ∨ status = 403) → status ≠ 404 → status ≠ 429 →
      ¬(500 ≤ status ∧ status ≤ 599) →
      SubStr (cs "Connection test failed") (classify_http_failure status model details)) ∧
    SubStr model (classify_http_failure status model details) ∧
    SubStr (natStr status) (classify_http_failure status model details) ∧
    (details ≠ [] → SubStr details (classify_http_failure status model details)) ∧
    (details = [] →
      classify_http_failure status model details =
        classifyPfx status ++ (cs " (model: " ++ (model ++ (cs ", status: " ++
          (natStr status ++ cs ")"))))) := by
  rw [classify_decompose]
  refine ⟨?_, ?_, ?_, ?_, ?_, ?_, ?_, ?_, ?_⟩
  · rintro (rfl | rfl)
    · exact SubStr_head _ (cs ". Check API key and permissions.") (by decide) _
    · exact SubStr_head _ (cs ". Check API key and permissions.") (by decide) _
  · rintro rfl
    exact SubStr_head _ (cs ". Check model/base URL.") (by decide) _
  · rintro rfl
    exact SubStr_head _ (cs " by provider.") (by decide) _
  · intro h
    have hpfx : classifyPfx status = cs "Provider server error." := by
      unfold classifyPfx
      rw [if_neg (by omega), if_neg (by omega), if_neg (by omega), if_pos h]
    rw [hpfx]
    exact SubStr_head _ (cs ".") (by decide) _
  · intro h1 h2 h3 h4
    have hpfx : classifyPfx status = cs "Connection test failed." := by
      unfold classifyPfx
      rw [if_neg h1, if_neg h2, if_neg h3, if_neg h4]
    rw [hpfx]
    exact SubStr_head _ (cs ".") (by decide) _
  · exact ⟨classifyPfx status ++ cs " (model: ",
      cs ", status: " ++ (natStr status ++
        (if details = [] then cs ")" else cs ", detail: " ++ (details ++ cs ")"))),
      by simp [List.append_assoc]⟩
  · exact ⟨classifyPfx status ++ cs " (model: " ++ model ++ cs ", status: ",
      (if details = [] then cs ")" else cs ", detail: " ++ (details ++ cs ")")),
      by simp [List.append_assoc]⟩
  · intro hd
    refine ⟨classifyPfx status ++ cs " (model: " ++ model ++ cs ", status: " ++
      natStr status ++ cs ", detail: ", cs ")", ?_⟩
    simp [hd, List.append_assoc]
  · intro hd
    simp [hd]

/-- Witness for C7 at status 401, model `"m"`, detail `"d"`. -/
theorem classifier_taxonomy_witness :
    SubStr (cs "Authentication failed") (classify_http_failure 401 (cs "m") (cs "d")) ∧
    SubStr (cs "401") (classify_http_failure 401 (cs "m") (cs "d")) ∧
    SubStr (cs "m") (classify_http_failure 401 (cs "m") (cs "d")) ∧
    SubStr (cs "d") (classify_http_failure 401 (cs "m") (cs "d")) := by
  obtain ⟨h1, -, -, -, -, h6, h7, h8, -⟩ := classifier_taxonomy 401 (cs "m") (cs "d")
  have hn : natStr 401 = cs "401" := by decide
  exact ⟨h1 (Or.inl rfl), hn ▸ h7, h6, h8 (by decide)⟩

/-- C9: the per-type default base URL is consulted only when `base_url` is
absent; a present-but-blank `base_url` (empty after trimming and stripping
trailing slashes) makes resolution fail, and then streaming, non-streaming
and probe dispatch all fail with the base-URL configuration error before any
network request; successful resolution never ends in `'/'`. -/
theorem base_url_resolution (jp : Str → Option Json) (p : Provider) (s key : Str)
    (msgs : List ProviderChatMessage) :
    (p.base_url = some s → trimEndSlashes (rustTrim s) = [] →
      resolve_base_url p = none) ∧
    (∀ u, resolve_base_url p = some u → u ≠ [] ∧ u.getLast? ≠ some '/') ∧
    (resolve_base_url p = none → rustTrim key ≠ [] → msgs ≠ [] →
      (∀ so, stream_provider_and_emit jp p key msgs so =
        ⟨[], .error (cs "Base URL is empty. Configure provider base URL."), false⟩) ∧
      (∀ co, call_provider_and_get_text p key msgs co =
        ⟨.error (cs "Base URL is empty. Configure provider base URL."), false⟩) ∧
      (∀ po, test_provider_connection p key po =
        (.mkFailure none 0 (cs "Base URL is empty. Set a valid base URL before testing."),
         false))) := by
  refine ⟨?_, ?_, ?_⟩
  · intro hb ht
    simp [resolve_base_url, hb, ht]
  · intro u hu
    unfold resolve_base_url at hu
    cases hc : (match p.base_url with
        | some s => some s
        | none => default_base_url p.provider_type) with
    | none => rw [hc] at hu; simp at hu
    | some chosen =>
      rw [hc] at hu
      by_cases hz : trimEndSlashes (rustTrim chosen) = []
      · simp [hz] at hu
      · simp only [hz, if_neg hz, ite_false] at hu
        cases hu
        refine ⟨hz, ?_⟩
        rcases trimEndSlashes_no_slash (rustTrim chosen) with h1 | h2
        · exact absurd h1 hz
        · exact h2
  · intro hres hkey hmsgs
    refine ⟨?_, ?_, ?_⟩
    · intro so
      simp [stream_provider_and_emit, hkey, hmsgs, hres]
    · intro co
      simp [call_provider_and_get_text, hkey, hmsgs, hres]
    · intro po
      simp [test_provider_connection, hkey, hres]

/-- Witness for C9: a provider whose `base_url` is `some "/"` fails
resolution (the OpenAI default is not consulted) and streaming dispatch
reports the configuration error without any network request; a trailing
slash in a usable URL is stripped. -/
theorem base_url_resolution_witness :
    resolve_base_url
      ⟨cs "i", cs "n", ProviderType.openai, some (cs "/"), cs "m", true, 0, 0, 0⟩ = none ∧
    stream_provider_and_emit (fun _ => none)
      ⟨cs "i", cs "n", ProviderType.openai, some (cs "/"), cs "m", true, 0, 0, 0⟩
      (cs "k") [⟨cs "user", cs "q"⟩] (HttpOutcome.netErr (cs "x")) =
      ⟨[], .error (cs "Base URL is empty. Configure provider base URL."), false⟩ ∧
    resolve_base_url
      ⟨cs "i", cs "n", ProviderType.openai, some (cs "https://h/v1/"), cs "m", true, 0, 0, 0⟩ =
      some (cs "https://h/v1") := by
  have h := base_url_resolution (fun _ => none)
    ⟨cs "i", cs "n", ProviderType.openai, some (cs "/"), cs "m", true, 0, 0, 0⟩
    (cs "/") (cs "k") [⟨cs "user", cs "q"⟩]
  have h1 := h.1 rfl (by decide)
  refine ⟨h1, ?_, by decide⟩
  exact (h.2.2 h1 (by decide) (by decide)).1 (HttpOutcome.netErr (cs "x"))

/-- C8: the connection probe resolves every listed failure path to a
`success = false` result with a non-empty message — empty trimmed API key
(with `status_code = none` and no network call), empty base URL, network
error, and non-2xx status. -/
theorem probe_failure_paths (p : Provider) (key : Str) (out : ProbeOutcome) :
    (rustTrim key = [] →
      test_provider_connection p key out =
        (ConnectionTestResult.mkFailure none 0
          (cs "API key is empty. Save API key before testing."), false)) ∧
    ((test_provider_connection p key out).1.success = false →
      (test_provider_connection p key out).1.message ≠ []) ∧
    (rustTrim key ≠ [] → resolve_base_url p = none →
      (test_provider_connection p key out).1.success = false ∧
      (test_provider_connection p key out).2 = false) ∧
    (∀ e lat, rustTrim key ≠ [] → resolve_base_url p ≠ none →
      out = ProbeOutcome.netErr e lat →
      (test_provider_connection p key out).1.success = false) ∧
    (∀ status lat chunks readErr, rustTrim key ≠ [] → resolve_base_url p ≠ none →
      out = ProbeOutcome.response status lat chunks readErr →
      isSuccessStatus status = false →
      (test_provider_connection p key out).1.success = false) := by
  refine ⟨?_, ?_, ?_, ?_, ?_⟩
  · intro hk
    simp [test_provider_connection, hk]
  · intro hs
    by_cases hk : rustTrim key = []
    · simp [test_provider_connection, hk, ConnectionTestResult.mkFailure, cs]
    · cases hres : resolve_base_url p with
      | none =>
        simp [test_provider_connection, hk, hres, ConnectionTestResult.mkFailure, cs]
      | some u =>
        cases out with
        | netErr e lat =>
          simp [test_provider_connection, hk, hres, ConnectionTestResult.mkFailure, cs]
        | response status lat chunks readErr =>
          by_cases hst : isSuccessStatus status
          · simp [test_provider_connection, hk, hres, hst,
              ConnectionTestResult.mkSuccess] at hs
          · simp only [test_provider_connection, hk, hres, hst] at hs ⊢
            simp [ConnectionTestResult.mkFailure]
            exact classify_ne_nil status p.model _
  · intro hk hres
    simp [test_provider_connection, hk, hres, ConnectionTestResult.mkFailure]
  · intro e lat hk hres hout
    subst hout
    cases hres2 : resolve_base_url p with
    | none => exact absurd hres2 hres
    | some u => simp [test_provider_connection, hk, hres2, ConnectionTestResult.mkFailure]
  · intro status lat chunks readErr hk hres hout hst
    subst hout
    cases hres2 : resolve_base_url p with
    | none => exact absurd hres2 hres
    | some u => simp [test_provider_connection, hk, hres2, hst, ConnectionTestResult.mkFailure]

/-- Witness for C8: a whitespace-only stored key makes the probe fail with
`status_code = none` and no network interaction. -/
theorem probe_failure_paths_witness :
    test_provider_connection
      ⟨cs "i", cs "n", ProviderType.openai, none, cs "m", true, 0, 0, 0⟩ (cs "  ")
      (ProbeOutcome.netErr (cs "unreached") 7) =
      (ConnectionTestResult.mkFailure none 0
        (cs "API key is empty. Save API key before testing."), false) :=
  (probe_failure_paths
    ⟨cs "i", cs "n", ProviderType.openai, none, cs "m", true, 0, 0, 0⟩ (cs "  ")
    (ProbeOutcome.netErr (cs "unreached") 7)).1 (by decide)

/-- Normalization of a bare prompt (no history): one user message holding the
trimmed prompt. -/
theorem normalize_none_of_trim_ne (prompt : Str) (hp : rustTrim prompt ≠ []) :
    normalize_messages none prompt = .ok [⟨cs "user", rustTrim prompt⟩] := by
  simp [normalize_messages, hp]

/-- C6: with absent history, or history fully dropped by filtering, a
non-blank prompt normalizes to exactly one user message holding the trimmed
prompt, and a blank prompt fails with the empty-prompt validation error, in
which case the streaming entry point performs no call at all. -/
theorem normalize_trivial_history (history : Option (List ProviderChatMessage))
    (prompt : Str)
    (h : history = none ∨ (history.getD []).filterMap normalize_history_msg = []) :
    (rustTrim prompt ≠ [] →
      normalize_messages history prompt = .ok [⟨cs "user", rustTrim prompt⟩]) ∧
    (rustTrim prompt = [] →
      normalize_messages history prompt = .error (cs "Prompt is empty.") ∧
      ∀ (jp : Str → Option Json) (p : Provider) (key : Str) (so : HttpOutcome)
        (co : CallOutcome),
        query_stream_provider jp p key history prompt so co =
          ⟨[], .error (cs "Prompt is empty."), 0, 0⟩) := by
  have hfil : (history.getD []).filterMap normalize_history_msg = [] := by
    rcases h with rfl | hf
    · rfl
    · exact hf
  constructor
  · intro hp
    simp [normalize_messages, hfil, hp]
  · intro hp
    have hn : normalize_messages history prompt = .error (cs "Prompt is empty.") := by
      simp [normalize_messages, hfil, hp]
    exact ⟨hn, fun jp p key so co => by simp [query_stream_provider, hn]⟩

/-- Witness for C6: a history whose only message carries an unknown role is
dropped, so the prompt `" hi "` becomes the single user message `"hi"`; the
blank prompt `"  "` fails with the empty-prompt error. -/
theorem normalize_trivial_history_witness :
    normalize_messages (some [⟨cs "tool", cs "x"⟩]) (cs " hi ") =
      .ok [⟨cs "user", cs "hi"⟩] ∧
    normalize_messages (some [⟨cs "tool", cs "x"⟩]) (cs "  ") =
      .error (cs "Prompt is empty.") := by
  have h1 := (normalize_trivial_history (some [⟨cs "tool", cs "x"⟩]) (cs " hi ")
    (Or.inr (by decide))).1 (by decide)
  have h2 := ((normalize_trivial_history (some [⟨cs "tool", cs "x"⟩]) (cs "  ")
    (Or.inr (by decide))).2 (by decide)).1
  constructor
  · rw [h1]; decide
  · exact h2

/-- Counterexample to C1 as stated: on a non-2xx streaming response the
orchestrating entry point still performs the non-streaming fallback call —
`unwrap_or(0)` turns the classified streaming error into zero streamed
characters, which triggers the fallback. -/
theorem stream_non2xx_fallback_attempted :
    (query_stream_provider (fun _ => none)
      ⟨cs "i", cs "n", ProviderType.openai, some (cs "https://h"), cs "m", true, 0, 0, 0⟩
      (cs "k") none (cs "q")
      (HttpOutcome.response 500 [] none)
      (CallOutcome.netErr (cs "x"))).fallbackCalls = 1 := by
  decide

/-- C1 (amended): on a non-2xx streaming response the streaming helper reads
a bounded (≤ 220 character) excerpt of the body, returns the classified
failure and emits nothing — but the orchestrating entry point then still
performs the single non-streaming fallback call, because the fallback runs
whenever zero characters were streamed, not only in the 2xx-zero-bytes
case. -/
theorem stream_non2xx_classified (jp : Str → Option Json) (p : Provider) (key : Str)
    (msgs : List ProviderChatMessage) (status : Nat) (chunks : List Str)
    (readErr : Option Str) (history : Option (List ProviderChatMessage)) (prompt : Str)
    (co : CallOutcome)
    (hkey : rustTrim key ≠ []) (hmsgs : msgs ≠ [])
    (hurl : resolve_base_url p ≠ none) (hst : isSuccessStatus status = false) :
    stream_provider_and_emit jp p key msgs (.response status chunks readErr) =
      ⟨[], .error (classify_http_failure status p.model (response_excerpt chunks readErr)),
        true⟩ ∧
    (response_excerpt chunks readErr).length ≤ 220 ∧
    (normalize_messages history prompt = .ok msgs →
      (query_stream_provider jp p key history prompt (.response status chunks readErr)
          co).fallbackCalls = 1) := by
  have hse : stream_provider_and_emit jp p key msgs (.response status chunks readErr) =
      ⟨[], .error (classify_http_failure status p.model (response_excerpt chunks readErr)),
        true⟩ := by
    cases hres : resolve_base_url p with
    | none => exact absurd hres hurl
    | some u => simp [stream_provider_and_emit, hkey, hmsgs, hres, hst]
  refine ⟨hse, ?_, ?_⟩
  · cases readErr with
    | some e => simp [response_excerpt]
    | none =>
      simp only [response_excerpt]
      exact List.length_take_le 220 _
  · intro hnorm
    simp only [query_stream_provider, hnorm, hse, streamedCount]
    cases hc : (call_provider_and_get_text p key msgs co).result <;> simp [hc]

/-- Witness for the amended C1 at a concrete 500 response. -/
theorem stream_non2xx_classified_witness :
    stream_provider_and_emit (fun _ => none)
      ⟨cs "i", cs "n", ProviderType.openai, some (cs "https://h"), cs "m", true, 0, 0, 0⟩
      (cs "k") [⟨cs "user", cs "q"⟩] (HttpOutcome.response 500 [cs "oops"] none) =
      ⟨[], .error (classify_http_failure 500 (cs "m") (cs "oops")), true⟩ := by
  have h := stream_non2xx_classified (fun _ => none)
    ⟨cs "i", cs "n", ProviderType.openai, some (cs "https://h"), cs "m", true, 0, 0, 0⟩
    (cs "k") [⟨cs "user", cs "q"⟩] 500 [cs "oops"] none none (cs "q")
    (CallOutcome.netErr (cs "x")) (by decide) (by decide) (by decide) (by decide)
  rw [h.1]
  decide

/-- C3: when the streaming attempt completes having emitted zero characters,
both streaming entry points make exactly one non-streaming fallback call
before reporting, and a fallback that yields text appends the entire text as
the single terminal delta after the streamed events. -/
theorem zero_streamed_one_fallback (jp : Str → Option Json) (p : Provider)
    (key prompt : Str) (history : Option (List ProviderChatMessage))
    (msgs : List ProviderChatMessage) (so : HttpOutcome) (co : CallOutcome) :
    (normalize_messages history prompt = .ok msgs →
      (stream_provider_and_emit jp p key msgs so).result = .ok 0 →
      (query_stream_provider jp p key history prompt so co).fallbackCalls = 1 ∧
      (∀ t, (call_provider_and_get_text p key msgs co).result = .ok t →
        (query_stream_provider jp p key history prompt so co).events =
          (stream_provider_and_emit jp p key msgs so).events ++ [t])) ∧
    (normalize_messages none prompt = .ok msgs →
      (stream_provider_and_emit jp p key msgs so).result = .ok 0 →
      (query_stream jp (some (p, key)) prompt so co).fallbackCalls = 1 ∧
      (∀ t, (call_provider_and_get_text p key msgs co).result = .ok t →
        (query_stream jp (some (p, key)) prompt so co).events =
          (stream_provider_and_emit jp p key msgs so).events ++ [t])) := by
  constructor
  · intro hnorm hzero
    simp only [query_stream_provider, hnorm, hzero, streamedCount]
    constructor
    · cases hc : (call_provider_and_get_text p key msgs co).result <;> simp [hc]
    · intro t ht
      simp [ht]
  · intro hnorm hzero
    simp only [query_stream, hnorm, hzero, streamedCount]
    constructor
    · cases hc : (call_provider_and_get_text p key msgs co).result <;> simp [hc]
    · intro t ht
      simp [ht]

/-- Witness for C3: an empty 2xx stream followed by a fallback that yields
`"hi"`, which arrives as the single terminal delta. -/
theorem zero_streamed_one_fallback_witness :
    (query_stream_provider (fun _ => none)
      ⟨cs "i", cs "n", ProviderType.openai, some (cs "https://h"), cs "m", true, 0, 0, 0⟩
      (cs "k") none (cs "q") (HttpOutcome.response 200 [] none)
      (CallOutcome.response 200
        (Json.obj [(cs "choices", Json.arr [Json.obj [(cs "message",
          Json.obj [(cs "content", Json.str (cs "hi"))])]])]))).fallbackCalls = 1 ∧
    (query_stream_provider (fun _ => none)
      ⟨cs "i", cs "n", ProviderType.openai, some (cs "https://h"), cs "m", true, 0, 0, 0⟩
      (cs "k") none (cs "q") (HttpOutcome.response 200 [] none)
      (CallOutcome.response 200
        (Json.obj [(cs "choices", Json.arr [Json.obj [(cs "message",
          Json.obj [(cs "content", Json.str (cs "hi"))])]])]))).events = [cs "hi"] := by
  have h := (zero_streamed_one_fallback (fun _ => none)
    ⟨cs "i", cs "n", ProviderType.openai, some (cs "https://h"), cs "m", true, 0, 0, 0⟩
    (cs "k") (cs "q") none [⟨cs "user", cs "q"⟩] (HttpOutcome.response 200 [] none)
    (CallOutcome.response 200
      (Json.obj [(cs "choices", Json.arr [Json.obj [(cs "message",
        Json.obj [(cs "content", Json.str (cs "hi"))])]])]))).1
    (by decide) (by decide)
  refine ⟨h.1, ?_⟩
  rw [h.2 (cs "hi") (by decide)]
  decide

/-- C10: once normalization succeeds, the active-provider entry point always
returns `Ok` — with no active provider it emits the no-active-provider
notice, and when both the streaming attempt and the fallback fail it emits
the placeholder message instead of propagating the error — whereas the
per-provider entry point surfaces the fallback error to its caller. -/
theorem query_stream_never_errs (jp : Str → Option Json)
    (active : Option (Provider × Str)) (prompt : Str)
    (so : HttpOutcome) (co : CallOutcome) (hp : rustTrim prompt ≠ []) :
    (query_stream jp active prompt so co).result = .ok () ∧
    (active = none →
      (query_stream jp active prompt so co).events = [no_active_provider_message]) ∧
    (∀ p key, active = some (p, key) →
      streamedCount
        (stream_provider_and_emit jp p key [⟨cs "user", rustTrim prompt⟩] so).result = 0 →
      ∀ e, (call_provider_and_get_text p key [⟨cs "user", rustTrim prompt⟩] co).result =
          .error e →
        (query_stream jp active prompt so co).events =
          (stream_provider_and_emit jp p key [⟨cs "user", rustTrim prompt⟩] so).events ++
            [placeholder_response p prompt key] ∧
        (query_stream_provider jp p key none prompt so co).result = .error e) := by
  have hnorm := normalize_none_of_trim_ne prompt hp
  refine ⟨?_, ?_, ?_⟩
  · cases active with
    | none => simp [query_stream, hnorm]
    | some pk =>
      obtain ⟨p, key⟩ := pk
      simp only [query_stream, hnorm]
      by_cases hgt : streamedCount
          (stream_provider_and_emit jp p key [⟨cs "user", rustTrim prompt⟩] so).result > 0
      · simp [hgt]
      · simp [hgt]
  · rintro rfl
    simp [query_stream, hnorm]
  · rintro p key rfl hzero e herr
    have hgt : ¬ streamedCount
        (stream_provider_and_emit jp p key [⟨cs "user", rustTrim prompt⟩] so).result > 0 := by
      omega
    constructor
    · simp [query_stream, hnorm, hgt, herr]
    · simp [query_stream_provider, hnorm, hgt, herr]

/-- Witness for C10: streaming and fallback both fail with network errors;
the active-provider entry point still returns `Ok` and emits the placeholder,
while the per-provider entry point surfaces the fallback error. -/
theorem query_stream_never_errs_witness :
    (query_stream (fun _ => none)
      (some (⟨cs "i", cs "n", ProviderType.openai, some (cs "https://h"), cs "m",
        true, 0, 0, 0⟩, cs "k")) (cs "q")
      (HttpOutcome.netErr (cs "x")) (CallOutcome.netErr (cs "y"))).result = .ok () ∧
    (query_stream (fun _ => none)
      (some (⟨cs "i", cs "n", ProviderType.openai, some (cs "https://h"), cs "m",
        true, 0, 0, 0⟩, cs "k")) (cs "q")
      (HttpOutcome.netErr (cs "x")) (CallOutcome.netErr (cs "y"))).events =
      [placeholder_response
        ⟨cs "i", cs "n", ProviderType.openai, some (cs "https://h"), cs "m",
          true, 0, 0, 0⟩ (cs "q") (cs "k")] ∧
    (query_stream_provider (fun _ => none)
      ⟨cs "i", cs "n", ProviderType.openai, some (cs "https://h"), cs "m",
        true, 0, 0, 0⟩ (cs "k") none (cs "q")
      (HttpOutcome.netErr (cs "x")) (CallOutcome.netErr (cs "y"))).result =
      .error (cs "Network error: y") := by
  have h := query_stream_never_errs (fun _ => none)
    (some (⟨cs "i", cs "n", ProviderType.openai, some (cs "https://h"), cs "m",
      true, 0, 0, 0⟩, cs "k")) (cs "q")
    (HttpOutcome.netErr (cs "x")) (CallOutcome.netErr (cs "y")) (by decide)
  have h3 := h.2.2 _ (cs "k") rfl (by decide) (cs "Network error: y") (by decide)
  refine ⟨h.1, ?_, h3.2⟩
  rw [h3.1]
  decide


theorem dropWhile_idem (p : Char → Bool) (l : List Char) :
    (l.dropWhile p).dropWhile p = l.dropWhile p := by
  induction l with
  | nil => rfl
  | cons c t ih =>
    by_cases h : p c
    · simp [List.dropWhile_cons, h, ih]
    · simp [List.dropWhile_cons, h]

theorem rustTrimEnd_idem (l : Str) : rustTrimEnd (rustTrimEnd l) = rustTrimEnd l := by
  induction l with
  | nil => rfl
  | cons c t ih =>
    by_cases h : rustTrimEnd t = [] ∧ rustIsWS c
    · have hc : rustTrimEnd (c :: t) = [] := by simp [rustTrimEnd, h]
      rw [hc]
      rfl
    · have hc : rustTrimEnd (c :: t) = c :: rustTrimEnd t := by simp [rustTrimEnd, h]
      rw [hc]
      have hstep : rustTrimEnd (c :: rustTrimEnd t) =
          if rustTrimEnd (rustTrimEnd t) = [] ∧ rustIsWS c then []
          else c :: rustTrimEnd (rustTrimEnd t) := by
        simp [rustTrimEnd]
      rw [hstep, ih, if_neg h]

theorem rustTrimEnd_cons_shape (c : Char) (t : Str) :
    rustTrimEnd (c :: t) = [] ∨ ∃ r, rustTrimEnd (c :: t) = c :: r := by
  by_cases h : rustTrimEnd t = [] ∧ rustIsWS c
  · left; simp [rustTrimEnd, h]
  · right; exact ⟨rustTrimEnd t, by simp [rustTrimEnd, h]⟩

theorem rustTrimStart_of_trimmed {l : Str} (h : rustTrimStart l = l) :
    rustTrimStart (rustTrimEnd l) = rustTrimEnd l := by
  cases l with
  | nil => rfl
  | cons c t =>
    have hc : ¬ rustIsWS c := by
      intro hw
      have hlen : (t.dropWhile rustIsWS).length ≤ t.length :=
        (List.dropWhile_suffix rustIsWS).length_le
      have hts : rustTrimStart (c :: t) = t.dropWhile rustIsWS := by
        simp [rustTrimStart, List.dropWhile_cons, hw]
      rw [hts] at h
      have := congrArg List.length h
      simp at this
      omega
    rcases rustTrimEnd_cons_shape c t with h1 | ⟨r, h2⟩
    · rw [h1]; rfl
    · rw [h2]
      simp [rustTrimStart, List.dropWhile_cons, hc]

theorem rustTrim_idem (l : Str) : rustTrim (rustTrim l) = rustTrim l := by
  unfold rustTrim
  have h1 : rustTrimStart (rustTrimStart l) = rustTrimStart l := dropWhile_idem rustIsWS l
  rw [rustTrimStart_of_trimmed h1, rustTrimEnd_idem]

theorem trimNonEmpty_spec {o : Option Str} {s : Str} (h : trimNonEmpty o = some s) :
    rustTrim s = s ∧ s ≠ [] := by
  cases o with
  | none => simp [trimNonEmpty] at h
  | some t =>
    simp only [trimNonEmpty] at h
    by_cases ht : rustTrim t = []
    · simp [ht] at h
    · simp only [ht, if_neg ht, ite_false] at h
      cases h
      exact ⟨rustTrim_idem t, ht⟩

theorem guarded_ne {x s : Str} (h : (if x ≠ [] then some x else none) = some s) :
    s ≠ [] := by
  by_cases hx : x ≠ []
  · rw [if_pos hx] at h; cases h; exact hx
  · rw [if_neg hx] at h; cases h

theorem parse_openai_delta_text_ne {body : Json} {s : Str}
    (h : parse_openai_delta_text body = some s) : s ≠ [] := by
  unfold parse_openai_delta_text at h
  split at h
  · cases h
  · split at h
    · cases h
    · dsimp only at h
      split at h
      · rename_i heq
        cases h
        split at heq
        · exact guarded_ne heq
        · cases heq
      · split at h
        · exact guarded_ne h
        · cases h

theorem parse_responses_text_spec {body : Json} {s : Str}
    (h : parse_responses_text body = some s) : rustTrim s = s ∧ s ≠ [] := by
  unfold parse_responses_text at h
  dsimp only at h
  split at h
  · rename_i heq
    cases h
    split at heq
    · rename_i x hx
      by_cases ht : rustTrim x ≠ []
      · rw [if_pos ht] at heq
        cases heq
        exact ⟨rustTrim_idem x, ht⟩
      · rw [if_neg ht] at heq
        cases heq
    · cases heq
  · exact trimNonEmpty_spec h

theorem parse_provider_text_spec {pt : ProviderType} {body : Json} {s : Str}
    (h : parse_provider_text pt body = some s) : rustTrim s = s ∧ s ≠ [] := by
  cases pt with
  | openai => exact trimNonEmpty_spec h
  | glm => exact trimNonEmpty_spec h
  | custom => exact trimNonEmpty_spec h
  | anthropic => exact trimNonEmpty_spec h
  | google => exact trimNonEmpty_spec h
  | volcengine => exact parse_responses_text_spec h

theorem parse_stream_delta_ne {pt : ProviderType} {body : Json} {s : Str}
    (h : parse_stream_delta pt body = some s) : s ≠ [] := by
  cases pt with
  | openai => exact parse_openai_delta_text_ne h
  | glm => exact parse_openai_delta_text_ne h
  | custom => exact parse_openai_delta_text_ne h
  | google => exact (trimNonEmpty_spec h).2
  | anthropic =>
    simp only [parse_stream_delta] at h
    split at h
    · exact guarded_ne h
    · cases h
  | volcengine =>
    simp only [parse_stream_delta] at h
    split at h
    · rename_i heq
      cases h
      split at heq
      · split at heq
        · rename_i d hd1
          cases heq
          split at hd1
          · exact guarded_ne hd1
          · cases hd1
        · split at heq
          · exact guarded_ne heq
          · cases heq
      · cases heq
    · split at h
      · rename_i t ho
        cases h
        exact parse_openai_delta_text_ne ho
      · split at h
        · exact guarded_ne h
        · cases h

/-- Counterexample to C4 as stated: the OpenAI-family delta parser returns
`" hi "` with its surrounding whitespace preserved — streaming deltas are not
trimmed. -/
theorem parser_trim_counterexample :
    parse_stream_delta ProviderType.openai
      (Json.obj [(cs "choices", Json.arr [Json.obj [(cs "delta",
        Json.obj [(cs "content", Json.str (cs " hi "))])]])]) = some (cs " hi ") ∧
    rustTrim (cs " hi ") ≠ cs " hi " := by
  decide

/-- C4 (amended): every string returned by the full-text parser is trimmed
and non-empty (whitespace-only extractions yield `None` for every vendor
family); the delta parser also never returns an empty string, but it does not
trim deltas (the Google family excepted, since it reuses the full-text
extraction). -/
theorem parser_trim_policy :
    (∀ (pt : ProviderType) (body : Json) (s : Str),
      parse_provider_text pt body = some s → rustTrim s = s ∧ s ≠ []) ∧
    (∀ (pt : ProviderType) (body : Json) (s : Str),
      parse_stream_delta pt body = some s → s ≠ []) :=
  ⟨fun _ _ _ h => parse_provider_text_spec h, fun _ _ _ h => parse_stream_delta_ne h⟩

/-- Witness for the amended C4: the full-text parser trims `" hi "` to
`"hi"`, which is its own trim and non-empty. -/
theorem parser_trim_policy_witness :
    rustTrim (cs "hi") = cs "hi" ∧ cs "hi" ≠ ([] : Str) :=
  parser_trim_policy.1 ProviderType.openai
    (Json.obj [(cs "choices", Json.arr [Json.obj [(cs "message",
      Json.obj [(cs "content", Json.str (cs " hi "))])]])]) (cs "hi") (by decide)
